import Mathlib

/-
Verification of the dm_robotics agentflow reward-preprocessor and
action-space code against its natural-language specification.

The Python source is shallowly embedded: numeric values are rationals
(ℚ), numpy arrays are lists of rationals, Python exceptions are an
`Except` error type, and the timestep / spec records of the external
dm_env framework are Lean structures.  Each definition mirrors one
Python function or method from
  py/agentflow/preprocessors/rewards.py
  py/agentflow/action_spaces.py
-/

set_option autoImplicit false

namespace DmRobotics

/-! ## Reward combination strategies (rewards.py)

`StagedWithActiveThreshold` and `StagedWithSuccessThreshold` are pure
functions over an ordered list of scalar rewards. -/

/-- Embeds `np.clip(x, 0, 1)` applied elementwise: clamp a rational into
the closed interval [0, 1]. -/
def clip01 (x : ℚ) : ℚ := min (max x 0) 1

/-- The `for i, last_reward in enumerate(reversed(rewards))` loop of
`StagedWithActiveThreshold.__call__` (rewards.py lines 300-307).
`n` is `num_stages`, `i` the running index, `last` the Python loop
variable `last_reward` (which persists after the loop and is returned,
divided by `num_stages`, when no element reaches the threshold). -/
def stagedActiveLoop (thresh : ℚ) (n : ℕ) : List ℚ → ℕ → ℚ → ℚ
  | [], _, last => last / (n : ℚ)
  | r :: rest, i, _ =>
      if thresh ≤ r then ((n : ℚ) - ((i : ℚ) + 1) + r) / (n : ℚ)
      else stagedActiveLoop thresh n rest (i + 1) r

/-- The configuration of `StagedWithActiveThreshold` (rewards.py line 284):
just the threshold `self._thresh`. -/
structure StagedWithActiveThreshold where
  thresh : ℚ

/-- Embeds `StagedWithActiveThreshold.__call__` (rewards.py lines 296-307):
clip every reward into [0, 1], then scan the reversed sequence for the
first element at or above the threshold. -/
def StagedWithActiveThreshold.call (s : StagedWithActiveThreshold)
    (rewards : List ℚ) : ℚ :=
  let rs := rewards.map clip01
  stagedActiveLoop s.thresh rs.length rs.reverse 0 0

/-- The boolean vector `np.asarray(rewards) > self._thresh` of
`StagedWithSuccessThreshold.__call__` (rewards.py line 359). -/
def aboveThreshold (thresh : ℚ) (rs : List ℚ) : List Bool :=
  rs.map (fun r => decide (thresh < r))

/-- Embeds `np.argmin` on a boolean vector (rewards.py line 369):
the index of the first minimal element, i.e. the index of the first
`false`, and 0 when every element is `true` (numpy returns the first
index of the minimum when all elements are equal).  numpy raises on an
empty array; the claims only use nonempty inputs and this embedding
returns 0 there. -/
def npArgminBool (l : List Bool) : ℕ :=
  if false ∈ l then l.indexOf false else 0

/-- The indices at which the boolean vector is `true`:
`np.argwhere(tasks_above_threshold)` (rewards.py line 363). -/
def trueIdxs (l : List Bool) : List ℕ :=
  (List.range l.length).filter (fun i => l.getD i false)

/-- The cumulative-success branch of `StagedWithSuccessThreshold.__call__`
(rewards.py lines 361-366): `solved_task_idxs.max() + 1` when any task is
above threshold, else 0. -/
def numSolvedCumulative (l : List Bool) : ℕ :=
  if l.any id then (trueIdxs l).foldl max 0 + 1 else 0

/-- The configuration of `StagedWithSuccessThreshold` (rewards.py lines
336-353): `self._thresh` and `self._assume_cumulative_success`. -/
structure StagedWithSuccessThreshold where
  thresh : ℚ
  assume_cumulative_success : Bool

/-- Embeds `StagedWithSuccessThreshold.__call__` (rewards.py lines
355-378): clip, compute the above-threshold vector, derive
`num_tasks_solved`, clamp it to `num_stages - 1`, and return
`(num_tasks_solved + rewards[num_tasks_solved]) / num_stages`. -/
def StagedWithSuccessThreshold.call (s : StagedWithSuccessThreshold)
    (rewards : List ℚ) : ℚ :=
  let rs := rewards.map clip01
  let num_stages := rs.length
  let tasks_above_threshold := aboveThreshold s.thresh rs
  let num_tasks_solved :=
    if s.assume_cumulative_success then numSolvedCumulative tasks_above_threshold
    else npArgminBool tasks_above_threshold
  let k := min num_tasks_solved (num_stages - 1)
  ((k : ℚ) + rs.getD k 0) / (num_stages : ℚ)

/-! ## Timesteps and reward preprocessors (rewards.py) -/

/-- A reward value (`RewardVal`, rewards.py line 32): a single float or a
numpy array of floats, embedded with rational scalars. -/
inductive RVal where
  | scalar (r : ℚ)
  | array (a : List ℚ)
deriving DecidableEq

/-- Modelled from the spec: the timestep-like record that reward
preprocessors transform — "an immutable value with reward, observation
(mapping from name to array), and other step metadata"; the class itself
(`PreprocessorTimestep`, from the timestep_preprocessor module) is not
among the sources under verification.  `step_type` and `discount` stand
for the other step metadata, and `_replace` / `replace` is Lean structure
update. -/
structure PTimestep where
  step_type : ℕ
  reward : RVal
  discount : ℚ
  observation : List (String × List ℚ)
deriving DecidableEq

/-- Python exceptions raised by the embedded code. -/
inductive PyErr where
  /-- bare `KeyError` from a plain dict lookup -/
  | keyError (key : String)
  /-- the process-time `KeyError` naming both keys
  ("... not a valid observation name. Valid names are ...") -/
  | keyErrorNames (obs0 obs1 : String)
  /-- the setup-time `KeyError` of `ThresholdedL2Reward._output_spec`
  ("Expected ... key in observation not found. ...") -/
  | keyErrorExpected (key : String)
  /-- a `ValueError` with its message -/
  | valueError (msg : String)
deriving DecidableEq

/-- Python dict lookup on an association list. -/
def lookup {α : Type} (m : List (String × α)) (k : String) : Option α :=
  (m.find? (fun p => p.1 == k)).map (fun p => p.2)

/-- Configuration of `ThresholdReward` (rewards.py lines 44-67); `hi` and
`lo` are already cast to the reward dtype, a cast that is the identity in
the rational embedding. -/
structure ThresholdReward where
  threshold : ℚ
  hi : ℚ
  lo : ℚ

/-- Embeds `ThresholdReward._process_impl` (rewards.py lines 70-74):
`reward := hi if timestep.reward >= threshold else lo`, then
`timestep._replace(reward=reward)`.  The comparison needs a scalar reward
(or a one-element array, whose numpy comparison result the Python `if`
accepts); a larger array makes the Python truth test raise. -/
def ThresholdReward.processImpl (p : ThresholdReward) (ts : PTimestep) :
    Except PyErr PTimestep :=
  match ts.reward with
  | RVal.scalar r =>
      Except.ok { ts with reward := RVal.scalar (if p.threshold ≤ r then p.hi else p.lo) }
  | RVal.array [r] =>
      Except.ok { ts with reward := RVal.scalar (if p.threshold ≤ r then p.hi else p.lo) }
  | RVal.array _ =>
      Except.error (PyErr.valueError "truth value of an array is ambiguous")

/-- Configuration of `L2Reward` (rewards.py lines 91-117). -/
structure L2Reward where
  obs0 : String
  obs1 : String
  reward_scale : ℚ
  reward_offset : ℚ

/-- Embeds `L2Reward._process_impl` (rewards.py lines 120-134): look both
keypoints up in the observation mapping — a missing key raises the
`KeyError` naming both keys — then set
`reward := -1 * dist * reward_scale + reward_offset`.  The Euclidean norm
`np.linalg.norm` belongs to the external numeric library (spec section 6)
and is passed in as `npnorm`; no claim proved here depends on its value. -/
def L2Reward.processImpl (npnorm : List ℚ → ℚ) (p : L2Reward) (ts : PTimestep) :
    Except PyErr PTimestep :=
  match lookup ts.observation p.obs0, lookup ts.observation p.obs1 with
  | some obs0_val, some obs1_val =>
      let dist := npnorm (List.zipWith (fun a b => a - b) obs0_val obs1_val)
      Except.ok { ts with reward := RVal.scalar (-1 * dist * p.reward_scale + p.reward_offset) }
  | _, _ => Except.error (PyErr.keyErrorNames p.obs0 p.obs1)

/-- Modelled from the spec: the spec record consumed at setup — "a spec
abstraction (shape, dtype, optional bounded min/max, optional
tab-separated name metadata)" plus an observation-spec mapping; only the
pieces the claims need are kept (the observation spec as a mapping from
key to element dtype, and the reward dtype).  The class itself
(`spec_utils.TimeStepSpec`) is not among the sources under verification. -/
structure TimeStepSpec where
  observation_spec : List (String × String)
  reward_dtype : String
deriving DecidableEq

/-- Stands for numpy type promotion (`np.promote_types`), an external
numeric-library function; the claims depend only on which keys are looked
up at setup, never on the promoted dtype value. -/
def np_promote_types (t0 t1 : String) : String :=
  if t0 = t1 then t0 else String.append (String.append t0 "+") t1

/-- Embeds `L2Reward._output_spec` (rewards.py lines 136-145): the dtypes
of `obs0` and `obs1` are read from the observation spec — plain dict
lookups, which raise a bare `KeyError` when the key is absent — and the
reward dtype becomes their promotion. -/
def L2Reward.outputSpec (p : L2Reward) (spec : TimeStepSpec) :
    Except PyErr TimeStepSpec :=
  match lookup spec.observation_spec p.obs0 with
  | none => Except.error (PyErr.keyError p.obs0)
  | some type0 =>
    match lookup spec.observation_spec p.obs1 with
    | none => Except.error (PyErr.keyError p.obs1)
    | some type1 =>
        Except.ok { spec with reward_dtype := np_promote_types type0 type1 }

/-- Configuration of `ThresholdedL2Reward` (rewards.py lines 154-170);
`zero_reward` is set to 0.0 at construction. -/
structure ThresholdedL2Reward where
  obs0 : String
  obs1 : String
  threshold : ℚ
  reward : ℚ
  zero_reward : ℚ := 0

/-- Embeds `ThresholdedL2Reward._process_impl` (rewards.py lines 172-186):
look both keypoints up — a missing key raises the `KeyError` naming both
keys — then `reward := reward if dist < threshold else zero_reward`. -/
def ThresholdedL2Reward.processImpl (npnorm : List ℚ → ℚ)
    (p : ThresholdedL2Reward) (ts : PTimestep) : Except PyErr PTimestep :=
  match lookup ts.observation p.obs0, lookup ts.observation p.obs1 with
  | some obs0_val, some obs1_val =>
      let dist := npnorm (List.zipWith (fun a b => a - b) obs0_val obs1_val)
      Except.ok { ts with reward := RVal.scalar (if dist < p.threshold then p.reward else p.zero_reward) }
  | _, _ => Except.error (PyErr.keyErrorNames p.obs0 p.obs1)

/-- Embeds `ThresholdedL2Reward._output_spec` (rewards.py lines 188-201):
an explicit eager check that both keys are present in the observation
spec, raising the "Expected ... key in observation not found" `KeyError`
for the first missing one; the reward dtype cast is the identity in the
rational embedding, so the input spec is returned. -/
def ThresholdedL2Reward.outputSpec (p : ThresholdedL2Reward)
    (spec : TimeStepSpec) : Except PyErr TimeStepSpec :=
  if lookup spec.observation_spec p.obs0 = none then
    Except.error (PyErr.keyErrorExpected p.obs0)
  else if lookup spec.observation_spec p.obs1 = none then
    Except.error (PyErr.keyErrorExpected p.obs1)
  else Except.ok spec

/-! ## CombineRewards (rewards.py) -/

/-- A child reward preprocessor as `CombineRewards` sees it: its `process`
function on timesteps, which may raise. -/
abbrev Child := PTimestep → Except PyErr PTimestep

/-- One step of reward collection in `CombineRewards._process_impl`
(rewards.py lines 439-442): an array reward is flattened into the
collection when `flatten_rewards` is set, otherwise appended whole;
scalar rewards are always appended. -/
def extendRewards (flatten : Bool) (acc : List RVal) (r : RVal) : List RVal :=
  match r with
  | RVal.array a => if flatten then acc ++ a.map RVal.scalar else acc ++ [r]
  | RVal.scalar _ => acc ++ [r]

/-- The child loop of `CombineRewards._process_impl` (rewards.py lines
436-442): `timestep = reward_preprocessor.process(timestep)` — each child
receives the previous child's output timestep — while `rewards`
accumulates each child's resulting reward. -/
def combineLoop (flatten : Bool) :
    List Child → PTimestep → List RVal → Except PyErr (PTimestep × List RVal)
  | [], ts, acc => Except.ok (ts, acc)
  | c :: cs, ts, acc =>
    match c ts with
    | Except.error e => Except.error e
    | Except.ok ts' => combineLoop flatten cs ts' (extendRewards flatten acc ts'.reward)

/-- Embeds `CombineRewards._process_impl` (rewards.py lines 427-449): run
the children in sequence, apply the combination strategy to the collected
rewards, cast to the output dtype (the identity in the rational embedding)
and return the final child's output timestep with the combined reward. -/
def CombineRewards.processImpl (children : List Child)
    (combination_strategy : List RVal → RVal) (flatten_rewards : Bool)
    (ts : PTimestep) : Except PyErr PTimestep :=
  match combineLoop flatten_rewards children ts [] with
  | Except.error e => Except.error e
  | Except.ok (tsN, rewards) =>
      Except.ok { tsN with reward := combination_strategy rewards }

/-- The reward-collection loop of the semantics that claim C4 asserts,
written from the claim's words for comparison with the code: every child's
`process` is applied to the INCOMING timestep `ts`, never to the previous
child's output. -/
def combineLoopClaimed (flatten : Bool) (ts : PTimestep) :
    List Child → List RVal → Except PyErr (List RVal)
  | [], acc => Except.ok acc
  | c :: cs, acc =>
    match c ts with
    | Except.error e => Except.error e
    | Except.ok ts' => combineLoopClaimed flatten ts cs (extendRewards flatten acc ts'.reward)

/-- The semantics claim C4 asserts, written from the claim's words: each
child receives the incoming record, and the incoming record is returned
with the combined reward. -/
def CombineRewards.processImplClaimed (children : List Child)
    (combination_strategy : List RVal → RVal) (flatten_rewards : Bool)
    (ts : PTimestep) : Except PyErr PTimestep :=
  match combineLoopClaimed flatten_rewards ts children [] with
  | Except.error e => Except.error e
  | Except.ok rewards =>
      Except.ok { ts with reward := combination_strategy rewards }

/-- Sequential composition of the children's `process` alone, without
reward collection; used to characterize `CombineRewards._process_impl`. -/
def chainProcess : List Child → PTimestep → Except PyErr PTimestep
  | [], ts => Except.ok ts
  | c :: cs, ts =>
    match c ts with
    | Except.error e => Except.error e
    | Except.ok ts' => chainProcess cs ts'

/-- The rewards collected along the sequential chained run of the
children; used to characterize `CombineRewards._process_impl`. -/
def collectRewards (flatten : Bool) :
    List Child → PTimestep → List RVal → Except PyErr (List RVal)
  | [], _, acc => Except.ok acc
  | c :: cs, ts, acc =>
    match c ts with
    | Except.error e => Except.error e
    | Except.ok ts' => collectRewards flatten cs ts' (extendRewards flatten acc ts'.reward)

/-- All scalar values contained in one reward value. -/
def rvalVals : RVal → List ℚ
  | RVal.scalar r => [r]
  | RVal.array a => a

/-- All scalar values contained in a list of reward values. -/
def allVals (l : List RVal) : List ℚ :=
  l.foldr (fun r acc => rvalVals r ++ acc) []

/-- Embeds `np.max` over the collected rewards — the default
`combination_strategy` of `CombineRewards` (rewards.py line 389): the
maximum of every scalar contained.  numpy raises on an empty collection;
the claims apply it to nonempty ones only, and this embedding returns 0
there. -/
def npMax (l : List RVal) : RVal :=
  RVal.scalar ((allVals l).foldl max ((allVals l).headD 0))

/-- Equality of embedded Python results is decidable, so concrete runs can
be checked by evaluation. -/
instance {ε α : Type} [DecidableEq ε] [DecidableEq α] : DecidableEq (Except ε α) :=
  fun x y =>
    match x, y with
    | Except.ok a, Except.ok b =>
        if h : a = b then isTrue (by rw [h])
        else isFalse (fun hc => h (by injection hc))
    | Except.error e, Except.error f =>
        if h : e = f then isTrue (by rw [h])
        else isFalse (fun hc => h (by injection hc))
    | Except.ok _, Except.error _ => isFalse (fun hc => by injection hc)
    | Except.error _, Except.ok _ => isFalse (fun hc => by injection hc)

/-! ## Action spaces (action_spaces.py) -/

/-- Embeds `dm_env.specs.BoundedArray` restricted to the 1-D shapes
`prefix_slicer` and `constrained_action_spec` handle (each component has a
name; the spec is primitive): `shape` is the single dimension. -/
structure BoundedArray where
  shape : ℕ
  dtype : String
  minimum : List ℚ
  maximum : List ℚ
  name : String
deriving DecidableEq

/-- Embeds the `dm_env.specs` class hierarchy as the outcomes of the
`isinstance` dispatch chain in `prefix_slicer` (action_spaces.py lines
114-129): `DiscreteArray` is tested first, then `BoundedArray`, then
`Array`; anything else is an unknown spec type.  Shapes are the 1-D
shapes the function handles. -/
inductive PySpec where
  | DiscreteArray (shape : ℕ) (dtype : String) (specName : String)
  | BoundedArraySpec (b : BoundedArray)
  | ArraySpec (shape : ℕ) (dtype : String) (specName : String)
  | OtherSpec (shape : ℕ) (dtype : String) (specName : String)
deriving DecidableEq

/-- The single dimension of the 1-D spec: `spec.shape[0]`, which for these
1-D shapes also equals `np.prod(spec.shape)`. -/
def PySpec.size : PySpec → ℕ
  | PySpec.DiscreteArray n _ _ => n
  | PySpec.BoundedArraySpec b => b.shape
  | PySpec.ArraySpec n _ _ => n
  | PySpec.OtherSpec n _ _ => n

/-- The spec's dtype. -/
def PySpec.dtype : PySpec → String
  | PySpec.DiscreteArray _ dt _ => dt
  | PySpec.BoundedArraySpec b => b.dtype
  | PySpec.ArraySpec _ dt _ => dt
  | PySpec.OtherSpec _ dt _ => dt

/-- The spec's name (a tab-separated list of per-component names). -/
def PySpec.specName : PySpec → String
  | PySpec.DiscreteArray _ _ nm => nm
  | PySpec.BoundedArraySpec b => b.name
  | PySpec.ArraySpec _ _ nm => nm
  | PySpec.OtherSpec _ _ nm => nm

/-- The `_Deslicer` action space's configuration (action_spaces.py lines
29-49).  Array values are `Option ℚ` with `none` standing for numpy's NaN,
so the stored fill value `self._default = np.nan if default_value is None
else default_value` is exactly the optional `default` field. -/
structure Deslicer where
  name : String
  input_spec : PySpec
  output_shape : ℕ
  output_dtype : String
  mask : List Bool
  default : Option ℚ
deriving DecidableEq

/-- The numpy boolean-mask assignment `output[self._mask] = action`:
positions where the mask is true take the next caller-supplied element in
index order; the other positions keep the output's value. -/
def maskedWrite : List Bool → List (Option ℚ) → List (Option ℚ) → List (Option ℚ)
  | true :: ms, a :: atl, _ :: otl => a :: maskedWrite ms atl otl
  | false :: ms, act, o :: otl => o :: maskedWrite ms act otl
  | _, _, os => os

/-- Embeds `_Deslicer.project` (action_spaces.py lines 59-66): build an
output array of the output shape filled with the default value (NaN — that
is, `none` — when no default was supplied), then overwrite the positions
selected by the mask with the caller-supplied values in index order; when
the mask has no true entry the filled array is returned unchanged. -/
def Deslicer.project (d : Deslicer) (action : List (Option ℚ)) : List (Option ℚ) :=
  let output := List.replicate d.output_shape d.default
  if d.mask.any id then maskedWrite d.mask action output else output

/-- numpy boolean indexing `xs[mask]`: keep the elements at true
positions of the mask. -/
def maskSelect {α : Type} (mask : List Bool) (xs : List α) : List α :=
  (List.zip mask xs).filterMap (fun p => if p.1 then some p.2 else none)

/-- Embeds the Python single-separator string split
`s.split('\t')` (used on spec names): split into the groups between
occurrences of the separator character, keeping empty groups, so that the
empty string yields `[""]` exactly as in Python. -/
def splitOnChar (c : Char) (s : String) : List String :=
  (s.toList.foldr
    (fun ch acc =>
      match acc with
      | g :: gs => if ch = c then [] :: g :: gs else (ch :: g) :: gs
      | [] => [[ch]])
    [[]]).map (fun g => String.mk g)

/-- Embeds the Python join `'\t'.join(names)`. -/
def tabJoin : List String → String
  | [] => ""
  | x :: xs => xs.foldl (fun acc s => acc ++ "\t" ++ s) x

/-- Result of `prefix_slicer`: either the identity action space
(`core.IdentityActionSpace`; modelled from the spec — "an empty input spec
returns an identity transform" — since the core module is not among the
sources under verification) or a `_Deslicer`. -/
inductive SlicerSpace where
  | IdentityActionSpace (spec : PySpec)
  | DeslicerSpace (d : Deslicer)
deriving DecidableEq

/-- Embeds `prefix_slicer` (action_spaces.py lines 69-137).  The compiled
regular expression and `re.match` belong to the external `re` library; the
predicate `pmatch` stands for the test `re.match(prefix_expr, nm) is not
None` applied to a component name `nm`, and `pfx` is the expression string
itself (stored as the Deslicer's name). -/
def prefix_slicer (spec : PySpec) (pfx : String) (pmatch : String → Bool)
    (default_value : Option ℚ) : Except PyErr SlicerSpace :=
  if spec.size = 0 then Except.ok (SlicerSpace.IdentityActionSpace spec)
  else
    let names := splitOnChar '\t' spec.specName
    let indices := names.map pmatch
    if names.length ≠ spec.size then
      Except.error (PyErr.valueError "Expected as many names as the spec has components")
    else
      match spec with
      | PySpec.DiscreteArray _ _ _ =>
          Except.error (PyErr.valueError "Support for DiscreteArray not implemented, yet.")
      | PySpec.BoundedArraySpec b =>
          Except.ok (SlicerSpace.DeslicerSpace (Deslicer.mk pfx
            (PySpec.BoundedArraySpec (BoundedArray.mk (indices.count true) b.dtype
              (maskSelect indices b.minimum) (maskSelect indices b.maximum)
              (tabJoin (maskSelect indices names))))
            spec.size spec.dtype indices default_value))
      | PySpec.ArraySpec _ dt _ =>
          Except.ok (SlicerSpace.DeslicerSpace (Deslicer.mk pfx
            (PySpec.ArraySpec (indices.count true) dt
              (tabJoin (maskSelect indices names)))
            spec.size spec.dtype indices default_value))
      | PySpec.OtherSpec _ _ _ =>
          Except.error (PyErr.valueError "unknown spec type")

/-- Elementwise `np.any(a > b)` on two equal-length arrays. -/
def npAnyGt : List ℚ → List ℚ → Bool
  | a :: atl, b :: btl => decide (b < a) || npAnyGt atl btl
  | [], _ => false
  | _ :: _, [] => false

/-- Embeds `constrained_action_spec` (action_spaces.py lines 269-299):
tighten a base bounded spec by caller-supplied minimum/maximum arrays (the
dtype cast is the identity in the rational embedding) — new min =
elementwise max(base min, given min), new max = elementwise min(base max,
given max) — raising when a given bound's shape mismatches the base's or
when the resulting bounds intersect. -/
def constrained_action_spec (minimum maximum : List ℚ) (base : BoundedArray) :
    Except PyErr BoundedArray :=
  if minimum.length ≠ base.minimum.length then
    Except.error (PyErr.valueError "minimum not compatible with base shape")
  else
    let newMin := List.zipWith max base.minimum minimum
    if maximum.length ≠ base.maximum.length then
      Except.error (PyErr.valueError "maximum not compatible with base shape")
    else
      let newMax := List.zipWith min base.maximum maximum
      if npAnyGt newMin newMax then
        Except.error (PyErr.valueError "minimum and maximum bounds intersect")
      else
        Except.ok (BoundedArray.mk base.shape base.dtype newMin newMax base.name)

/-! ### Loop lemmas for `StagedWithActiveThreshold` -/

/-- When the element at position `j` is the first element of the list at or
above the threshold, the loop returns at that element. -/
theorem stagedActiveLoop_found (thresh : ℚ) (n : ℕ) :
    ∀ (l : List ℚ) (j i0 : ℕ) (last : ℚ),
      j < l.length → thresh ≤ l.getD j 0 → (∀ k, k < j → l.getD k 0 < thresh) →
      stagedActiveLoop thresh n l i0 last
        = ((n : ℚ) - (((i0 + j : ℕ) : ℚ) + 1) + l.getD j 0) / (n : ℚ)
  | [], j, _, _, hj, _, _ => absurd hj (by simp)
  | r :: rest, 0, i0, last, _, hge, _ => by
      have hr : thresh ≤ r := by simpa using hge
      simp [stagedActiveLoop, if_pos hr]
  | r :: rest, j + 1, i0, last, hj, hge, hlt => by
      have hr : r < thresh := by simpa using hlt 0 (Nat.succ_pos j)
      rw [stagedActiveLoop, if_neg (not_le.mpr hr)]
      rw [stagedActiveLoop_found thresh n rest j (i0 + 1) r
        (by simpa using hj) (by simpa using hge)
        (fun k hk => by simpa using hlt (k + 1) (by omega))]
      have hc : ((i0 + 1 + j : ℕ) : ℚ) = ((i0 + (j + 1) : ℕ) : ℚ) := by push_cast; ring
      rw [hc]
      simp [List.getD]

/-- When every element of the list is below the threshold, the loop falls
through and returns the last visited element (or `last` for an empty list)
divided by `n`. -/
theorem stagedActiveLoop_none (thresh : ℚ) (n : ℕ) :
    ∀ (l : List ℚ) (i0 : ℕ) (last : ℚ), (∀ r ∈ l, r < thresh) →
      stagedActiveLoop thresh n l i0 last = l.getLastD last / (n : ℚ)
  | [], _, _, _ => rfl
  | r :: rest, i0, last, h => by
      rw [stagedActiveLoop, if_neg (not_le.mpr (h r (List.mem_cons_self r rest)))]
      rw [stagedActiveLoop_none thresh n rest (i0 + 1) r
        (fun x hx => h x (List.mem_cons_of_mem r hx))]
      rw [List.getLastD_cons]

/-- The loop's output stays in [0, 1] whenever every list element and the
accumulator are in [0, 1] and the indices are consistent with `n`. -/
theorem stagedActiveLoop_bounds (thresh : ℚ) (n : ℕ) :
    ∀ (l : List ℚ) (i0 : ℕ) (last : ℚ),
      (∀ r ∈ l, 0 ≤ r ∧ r ≤ 1) → 0 ≤ last → last ≤ 1 → i0 + l.length = n → 0 < n →
      0 ≤ stagedActiveLoop thresh n l i0 last ∧ stagedActiveLoop thresh n l i0 last ≤ 1
  | [], i0, last, _, h0, h1, _, hn => by
      have hnq : (0 : ℚ) < (n : ℚ) := by exact_mod_cast hn
      have hn1 : (1 : ℚ) ≤ (n : ℚ) := by exact_mod_cast hn
      rw [stagedActiveLoop]
      refine ⟨div_nonneg h0 hnq.le, ?_⟩
      rw [div_le_one hnq]
      exact h1.trans hn1
  | r :: rest, i0, last, h, h0, h1, hlen, hn => by
      have hr := h r (List.mem_cons_self r rest)
      rw [stagedActiveLoop]
      by_cases hth : thresh ≤ r
      · rw [if_pos hth]
        have hnq : (0 : ℚ) < (n : ℚ) := by exact_mod_cast hn
        have hi1 : i0 + 1 ≤ n := by simp at hlen; omega
        have hi1q : ((i0 : ℚ) + 1) ≤ (n : ℚ) := by exact_mod_cast hi1
        have hnum0 : 0 ≤ (n : ℚ) - ((i0 : ℚ) + 1) + r := by
          have := hr.1; linarith
        have hnum1 : (n : ℚ) - ((i0 : ℚ) + 1) + r ≤ (n : ℚ) := by
          have := hr.2
          have : r ≤ 1 := this
          have hpos : (0 : ℚ) ≤ (i0 : ℚ) := by positivity
          linarith
        constructor
        · exact div_nonneg hnum0 hnq.le
        · rw [div_le_one hnq]; exact hnum1
      · rw [if_neg hth]
        exact stagedActiveLoop_bounds thresh n rest (i0 + 1) r
          (fun x hx => h x (List.mem_cons_of_mem r hx)) hr.1 hr.2
          (by simp at hlen ⊢; omega) hn

/-- Every clipped value lies in [0, 1]. -/
theorem clip01_mem_unit (x : ℚ) : 0 ≤ clip01 x ∧ clip01 x ≤ 1 := by
  unfold clip01
  constructor
  · exact le_min (le_max_right x 0) (by norm_num)
  · exact min_le_right _ 1

/-! ### Claim theorems: staged reward strategies -/

/-- C1: for every sequence of rewards, `StagedWithActiveThreshold.__call__`
first clips every entry into [0, 1] and then iterates the reversed clipped
sequence with 0-based index j; on the first element at or above the
threshold it returns (n - (j+1) + element) / n where n is the sequence
length; in particular the instance with threshold 0.9 applied to
[0.95, 0.92, 0.6] returns (1 + 0.92) / 3 = 0.64. -/
theorem c1_staged_active_first_above_threshold :
    (∀ (s : StagedWithActiveThreshold) (rewards : List ℚ) (j : ℕ),
      j < ((rewards.map clip01).reverse).length →
      s.thresh ≤ ((rewards.map clip01).reverse).getD j 0 →
      (∀ k, k < j → ((rewards.map clip01).reverse).getD k 0 < s.thresh) →
      s.call rewards
        = ((rewards.length : ℚ) - ((j : ℚ) + 1)
            + ((rewards.map clip01).reverse).getD j 0) / (rewards.length : ℚ))
    ∧ (StagedWithActiveThreshold.mk (9/10)).call [19/20, 23/25, 3/5]
        = (1 + 23/25) / 3 := by
  constructor
  · intro s rewards j hj hge hlt
    unfold StagedWithActiveThreshold.call
    rw [stagedActiveLoop_found s.thresh _ _ j 0 0 hj hge hlt]
    simp
  · norm_num [StagedWithActiveThreshold.call, stagedActiveLoop, clip01]

/-- Witness for C1: the general statement applied to threshold 0.9,
rewards [0.95, 0.92, 0.6] and j = 1, giving (3 - 2 + 0.92) / 3 = 0.64. -/
theorem c1_witness :
    (StagedWithActiveThreshold.mk (9/10)).call [19/20, 23/25, 3/5] = 16/25 := by
  have h := c1_staged_active_first_above_threshold.1
    (StagedWithActiveThreshold.mk (9/10)) [19/20, 23/25, 3/5] 1
    (by norm_num)
    (by norm_num [clip01])
    (by
      intro k hk
      rw [Nat.lt_one_iff] at hk
      subst hk
      norm_num [clip01])
  rw [h]
  norm_num [clip01]

/-- C3 counterexample: with threshold 0.9 and rewards [1/2, 1/5] no clipped
entry meets the threshold, and `__call__` returns 1/4 — the first entry
divided by n — not the last entry divided by n (which would be 1/10). -/
theorem c3_counterexample :
    (StagedWithActiveThreshold.mk (9/10)).call [1/2, 1/5] ≠ (1/5 : ℚ) / 2 := by
  norm_num [StagedWithActiveThreshold.call, stagedActiveLoop, clip01]

/-- C3 amended: for every nonempty sequence of rewards in which no clipped
entry meets the threshold, `StagedWithActiveThreshold.__call__` returns the
first entry's clipped value divided by n (the first entry is the last
element visited by the reversed iteration). -/
theorem c3_staged_active_below_threshold_amended :
    ∀ (s : StagedWithActiveThreshold) (rewards : List ℚ),
      rewards ≠ [] → (∀ r ∈ rewards, clip01 r < s.thresh) →
      s.call rewards = clip01 (rewards.headD 0) / (rewards.length : ℚ) := by
  intro s rewards _ h
  unfold StagedWithActiveThreshold.call
  rw [stagedActiveLoop_none s.thresh _ _ 0 0
    (by
      intro r hr
      rw [List.mem_reverse, List.mem_map] at hr
      obtain ⟨x, hx, rfl⟩ := hr
      exact h x hx)]
  rw [List.getLastD_eq_getLast?, List.getLast?_reverse, List.headD_eq_head?]
  cases rewards with
  | nil => simp
  | cons a l => simp [clip01]

/-- Witness for C3's amended statement: threshold 0.9 on [1/2, 1/5]
returns (1/2) / 2 = 1/4. -/
theorem c3_witness :
    (StagedWithActiveThreshold.mk (9/10)).call [1/2, 1/5] = 1/4 := by
  have h := c3_staged_active_below_threshold_amended
    (StagedWithActiveThreshold.mk (9/10)) [1/2, 1/5]
    (by simp)
    (by
      intro r hr
      simp at hr
      rcases hr with rfl | rfl <;> norm_num [clip01])
  rw [h]
  norm_num [clip01]

/-- C2: the code's behavior at the failing input.  With threshold 0.9,
`assume_cumulative_success = False` and rewards [0.95, 0.95] — every stage
above threshold — `StagedWithSuccessThreshold.__call__` returns
(0 + 0.95) / 2 = 0.475, because `np.argmin` of the all-True vector is 0;
the claim (and the constructor docstring, which says the first K contiguous
tasks above threshold are considered solved) requires solved count
2 clamped to 1, i.e. (1 + 0.95) / 2 = 0.975. -/
theorem c2_success_threshold_all_true_divergence :
    (StagedWithSuccessThreshold.mk (9/10) false).call [19/20, 19/20]
      = (0 + 19/20) / 2
    ∧ (StagedWithSuccessThreshold.mk (9/10) false).call [19/20, 19/20]
      ≠ (1 + 19/20) / 2 := by
  constructor <;>
    norm_num [StagedWithSuccessThreshold.call, aboveThreshold, npArgminBool,
      numSolvedCumulative, trueIdxs, clip01, List.indexOf, List.findIdx,
      List.findIdx.go]

/-- Clipped lists have all their elements in [0, 1]. -/
theorem mem_map_clip01_unit (rewards : List ℚ) :
    ∀ r ∈ rewards.map clip01, 0 ≤ r ∧ r ≤ 1 := by
  intro r hr
  rw [List.mem_map] at hr
  obtain ⟨x, _, rfl⟩ := hr
  exact clip01_mem_unit x

/-- C10: for every nonempty input sequence the scalars returned by
`StagedWithActiveThreshold.__call__` and by
`StagedWithSuccessThreshold.__call__` lie in the closed interval [0, 1]:
inputs are clipped into [0, 1] and the solved/preceding-stage count never
exceeds n - 1. -/
theorem c10_staged_outputs_in_unit_interval :
    ∀ (thresh : ℚ) (cumulative : Bool) (rewards : List ℚ), rewards ≠ [] →
      (0 ≤ (StagedWithActiveThreshold.mk thresh).call rewards
        ∧ (StagedWithActiveThreshold.mk thresh).call rewards ≤ 1)
      ∧ (0 ≤ (StagedWithSuccessThreshold.mk thresh cumulative).call rewards
        ∧ (StagedWithSuccessThreshold.mk thresh cumulative).call rewards ≤ 1) := by
  intro thresh cumulative rewards hne
  have hlen : 0 < rewards.length := List.length_pos.mpr hne
  constructor
  · unfold StagedWithActiveThreshold.call
    refine stagedActiveLoop_bounds thresh _ _ 0 0 ?_ le_rfl zero_le_one (by simp) (by simpa)
    intro r hr
    rw [List.mem_reverse] at hr
    exact mem_map_clip01_unit rewards r hr
  · unfold StagedWithSuccessThreshold.call
    set rs := rewards.map clip01 with hrs
    have hrslen : rs.length = rewards.length := List.length_map rewards clip01
    set num := if (StagedWithSuccessThreshold.mk thresh cumulative).assume_cumulative_success
      then numSolvedCumulative (aboveThreshold (StagedWithSuccessThreshold.mk thresh cumulative).thresh rs)
      else npArgminBool (aboveThreshold (StagedWithSuccessThreshold.mk thresh cumulative).thresh rs) with hnum
    set k := min num (rs.length - 1) with hk
    have hkn : k < rs.length := by
      have : rs.length - 1 < rs.length := by omega
      omega
    have hget : 0 ≤ rs.getD k 0 ∧ rs.getD k 0 ≤ 1 := by
      rw [List.getD_eq_getElem rs 0 hkn]
      exact mem_map_clip01_unit rewards _ (List.getElem_mem hkn)
    have hnq : (0 : ℚ) < (rs.length : ℚ) := by exact_mod_cast hrslen ▸ hlen
    have hkq : (k : ℚ) ≤ (rs.length : ℚ) - 1 := by
      have h1 : k ≤ rs.length - 1 := min_le_right _ _
      have h2 : (k : ℚ) ≤ ((rs.length - 1 : ℕ) : ℚ) := by exact_mod_cast h1
      rw [Nat.cast_sub (by omega)] at h2
      simpa using h2
    constructor
    · exact div_nonneg (add_nonneg (Nat.cast_nonneg k) hget.1) hnq.le
    · rw [div_le_one hnq]
      have := hget.2
      linarith

/-- Witness for C10: both strategies at threshold 0.9 on the one-element
sequence [0.95] return a value in [0, 1]. -/
theorem c10_witness :
    (0 ≤ (StagedWithActiveThreshold.mk (9/10)).call [19/20]
      ∧ (StagedWithActiveThreshold.mk (9/10)).call [19/20] ≤ 1)
    ∧ (0 ≤ (StagedWithSuccessThreshold.mk (9/10) true).call [19/20]
      ∧ (StagedWithSuccessThreshold.mk (9/10) true).call [19/20] ≤ 1) :=
  c10_staged_outputs_in_unit_interval (9/10) true [19/20] (by simp)

/-! ### Claim theorems: preprocessor setup and process errors (C8) -/

/-- C8 counterexample: `L2Reward._output_spec` on an observation spec that
lacks the configured keys fails already at setup — the dtype lookup raises
a bare `KeyError` — so `L2Reward` does not perform "no key check at setup"
and does not fail "only at process time". -/
theorem c8_counterexample :
    (L2Reward.outputSpec (L2Reward.mk "a" "b" 1 1)
      (TimeStepSpec.mk [] "float64")).isOk = false := by
  norm_num [L2Reward.outputSpec, lookup, Except.isOk, Except.toBool]

/-- C8 amended: `ThresholdedL2Reward` fails at setup with the explicit
missing-key error naming the first missing key when `obs0` or `obs1` is
absent from the observation spec; `L2Reward` performs no explicit key
check at setup, but its setup dtype lookups nevertheless fail (with a bare
`KeyError`) exactly when `obs0` or `obs1` is absent from the observation
spec; and `L2Reward`'s process fails with the missing-key error naming the
invalid keys exactly when `obs0` or `obs1` is absent from the timestep's
observation mapping. -/
theorem c8_setup_and_process_key_errors :
    (∀ (p : ThresholdedL2Reward) (spec : TimeStepSpec),
      (lookup spec.observation_spec p.obs0 = none →
        p.outputSpec spec = Except.error (PyErr.keyErrorExpected p.obs0))
      ∧ (lookup spec.observation_spec p.obs0 ≠ none →
          lookup spec.observation_spec p.obs1 = none →
        p.outputSpec spec = Except.error (PyErr.keyErrorExpected p.obs1))
      ∧ (lookup spec.observation_spec p.obs0 ≠ none →
          lookup spec.observation_spec p.obs1 ≠ none →
        p.outputSpec spec = Except.ok spec))
    ∧ (∀ (p : L2Reward) (spec : TimeStepSpec),
      (∃ e, p.outputSpec spec = Except.error e) ↔
        (lookup spec.observation_spec p.obs0 = none
          ∨ lookup spec.observation_spec p.obs1 = none))
    ∧ (∀ (npnorm : List ℚ → ℚ) (p : L2Reward) (ts : PTimestep),
      L2Reward.processImpl npnorm p ts
          = Except.error (PyErr.keyErrorNames p.obs0 p.obs1) ↔
        (lookup ts.observation p.obs0 = none
          ∨ lookup ts.observation p.obs1 = none)) := by
  refine ⟨?_, ?_, ?_⟩
  · intro p spec
    unfold ThresholdedL2Reward.outputSpec
    refine ⟨fun h0 => by rw [if_pos h0], fun h0 h1 => ?_, fun h0 h1 => ?_⟩
    · rw [if_neg h0, if_pos h1]
    · rw [if_neg h0, if_neg h1]
  · intro p spec
    unfold L2Reward.outputSpec
    cases h0 : lookup spec.observation_spec p.obs0 with
    | none => simp
    | some t0 =>
      cases h1 : lookup spec.observation_spec p.obs1 with
      | none => simp
      | some t1 => simp
  · intro npnorm p ts
    unfold L2Reward.processImpl
    cases h0 : lookup ts.observation p.obs0 with
    | none => simp
    | some v0 =>
      cases h1 : lookup ts.observation p.obs1 with
      | none => simp
      | some v1 => simp

/-- Witness for C8's amended statement: with keys "x"/"y" absent,
`ThresholdedL2Reward._output_spec` raises the explicit missing-key error,
`L2Reward._output_spec` raises too, and `L2Reward._process_impl` raises
the error naming both keys. -/
theorem c8_witness :
    (ThresholdedL2Reward.outputSpec (ThresholdedL2Reward.mk "x" "y" 1 1 0)
        (TimeStepSpec.mk [] "float64")
      = Except.error (PyErr.keyErrorExpected "x"))
    ∧ (∃ e, L2Reward.outputSpec (L2Reward.mk "x" "y" 1 1)
        (TimeStepSpec.mk [] "float64") = Except.error e)
    ∧ L2Reward.processImpl (fun _ => 0) (L2Reward.mk "x" "y" 1 1)
        (PTimestep.mk 0 (RVal.scalar 0) 1 [])
      = Except.error (PyErr.keyErrorNames "x" "y") := by
  refine ⟨?_, ?_, ?_⟩
  · exact (c8_setup_and_process_key_errors.1
      (ThresholdedL2Reward.mk "x" "y" 1 1 0) (TimeStepSpec.mk [] "float64")).1
      (by simp [lookup])
  · exact (c8_setup_and_process_key_errors.2.1
      (L2Reward.mk "x" "y" 1 1) (TimeStepSpec.mk [] "float64")).mpr
      (Or.inl (by simp [lookup]))
  · exact (c8_setup_and_process_key_errors.2.2
      (fun _ => 0) (L2Reward.mk "x" "y" 1 1)
      (PTimestep.mk 0 (RVal.scalar 0) 1 [])).mpr
      (Or.inl (by simp [lookup]))

/-! ### Claim theorems: structural replace preserves the other fields (C9) -/

/-- C9: for `ThresholdReward`, `L2Reward` and `ThresholdedL2Reward`,
`_process_impl` returns a new record built by structural replace in which
every field other than `reward` — the step type, the discount and the
observation mapping — equals the corresponding field of the input record;
records are immutable values here, so the input is never mutated. -/
theorem c9_process_preserves_non_reward_fields :
    (∀ (p : ThresholdReward) (ts ts' : PTimestep),
      p.processImpl ts = Except.ok ts' →
      ts'.step_type = ts.step_type ∧ ts'.discount = ts.discount
        ∧ ts'.observation = ts.observation)
    ∧ (∀ (npnorm : List ℚ → ℚ) (p : L2Reward) (ts ts' : PTimestep),
      L2Reward.processImpl npnorm p ts = Except.ok ts' →
      ts'.step_type = ts.step_type ∧ ts'.discount = ts.discount
        ∧ ts'.observation = ts.observation)
    ∧ (∀ (npnorm : List ℚ → ℚ) (p : ThresholdedL2Reward) (ts ts' : PTimestep),
      ThresholdedL2Reward.processImpl npnorm p ts = Except.ok ts' →
      ts'.step_type = ts.step_type ∧ ts'.discount = ts.discount
        ∧ ts'.observation = ts.observation) := by
  refine ⟨?_, ?_, ?_⟩
  · intro p ts ts' h
    unfold ThresholdReward.processImpl at h
    split at h
    · simp only [Except.ok.injEq] at h
      subst h
      exact ⟨rfl, rfl, rfl⟩
    · simp only [Except.ok.injEq] at h
      subst h
      exact ⟨rfl, rfl, rfl⟩
    · simp at h
  · intro npnorm p ts ts' h
    unfold L2Reward.processImpl at h
    split at h
    · simp only [Except.ok.injEq] at h
      subst h
      exact ⟨rfl, rfl, rfl⟩
    · simp at h
  · intro npnorm p ts ts' h
    unfold ThresholdedL2Reward.processImpl at h
    split at h
    · simp only [Except.ok.injEq] at h
      subst h
      exact ⟨rfl, rfl, rfl⟩
    · simp at h

/-- Witness for C9: each of the three preprocessors applied to a concrete
timestep yields a record agreeing with the input on every field but the
reward. -/
theorem c9_witness :
    ((PTimestep.mk 0 (RVal.scalar 1) 1 [("a", [1]), ("b", [2])]).step_type
        = (PTimestep.mk 0 (RVal.scalar (3/5)) 1 [("a", [1]), ("b", [2])]).step_type
      ∧ (PTimestep.mk 0 (RVal.scalar 1) 1 [("a", [1]), ("b", [2])]).discount
        = (PTimestep.mk 0 (RVal.scalar (3/5)) 1 [("a", [1]), ("b", [2])]).discount
      ∧ (PTimestep.mk 0 (RVal.scalar 1) 1 [("a", [1]), ("b", [2])]).observation
        = (PTimestep.mk 0 (RVal.scalar (3/5)) 1 [("a", [1]), ("b", [2])]).observation)
    ∧ ((PTimestep.mk 0 (RVal.scalar 1) 1 [("a", [1]), ("b", [2])]).step_type
        = (PTimestep.mk 0 (RVal.scalar (3/5)) 1 [("a", [1]), ("b", [2])]).step_type)
    ∧ ((PTimestep.mk 0 (RVal.scalar 5) 1 [("a", [1]), ("b", [2])]).observation
        = (PTimestep.mk 0 (RVal.scalar (3/5)) 1 [("a", [1]), ("b", [2])]).observation) := by
  refine ⟨?_, ?_, ?_⟩
  · exact c9_process_preserves_non_reward_fields.1
      (ThresholdReward.mk (1/2) 1 0)
      (PTimestep.mk 0 (RVal.scalar (3/5)) 1 [("a", [1]), ("b", [2])])
      (PTimestep.mk 0 (RVal.scalar 1) 1 [("a", [1]), ("b", [2])])
      (by norm_num [ThresholdReward.processImpl])
  · exact (c9_process_preserves_non_reward_fields.2.1
      (fun _ => 0) (L2Reward.mk "a" "b" 1 1)
      (PTimestep.mk 0 (RVal.scalar (3/5)) 1 [("a", [1]), ("b", [2])])
      (PTimestep.mk 0 (RVal.scalar 1) 1 [("a", [1]), ("b", [2])])
      (by simp only [L2Reward.processImpl, lookup, List.find?, String.reduceBEq]
          norm_num)).1
  · exact (c9_process_preserves_non_reward_fields.2.2
      (fun _ => 0) (ThresholdedL2Reward.mk "a" "b" 1 5 0)
      (PTimestep.mk 0 (RVal.scalar (3/5)) 1 [("a", [1]), ("b", [2])])
      (PTimestep.mk 0 (RVal.scalar 5) 1 [("a", [1]), ("b", [2])])
      (by simp only [ThresholdedL2Reward.processImpl, lookup, List.find?, String.reduceBEq]
          norm_num)).2.2

/-! ### Claim theorems: CombineRewards (C4) -/

/-- Helper: the single loop of `CombineRewards._process_impl` succeeds with
final timestep `tsN` and rewards `rs` exactly when the chained run of the
children ends in `tsN` and the reward collection along that chained run
yields `rs`. -/
theorem combineLoop_eq_chain_collect (flatten : Bool) :
    ∀ (cs : List Child) (ts : PTimestep) (acc : List RVal)
      (tsN : PTimestep) (rs : List RVal),
      combineLoop flatten cs ts acc = Except.ok (tsN, rs) ↔
        (chainProcess cs ts = Except.ok tsN
          ∧ collectRewards flatten cs ts acc = Except.ok rs)
  | [], ts, acc, tsN, rs => by
      simp [combineLoop, chainProcess, collectRewards, Prod.ext_iff, and_comm]
  | c :: cs, ts, acc, tsN, rs => by
      cases h : c ts with
      | error e => simp [combineLoop, chainProcess, collectRewards, h]
      | ok ts' =>
          simp only [combineLoop, chainProcess, collectRewards, h]
          exact combineLoop_eq_chain_collect flatten cs ts'
            (extendRewards flatten acc ts'.reward) tsN rs

/-- C4 counterexample: two `ThresholdReward` children observing the reward
show that each child receives the PREVIOUS child's output, not a copy of
the incoming record: on an incoming reward of 0.6, chaining yields rewards
[1, 5] and combined reward 5, while the claimed run-on-copies semantics
would yield rewards [1, 2] and combined reward 2. -/
theorem c4_counterexample :
    CombineRewards.processImpl
        [(ThresholdReward.mk (1/2) 1 0).processImpl,
         (ThresholdReward.mk (9/10) 5 2).processImpl] npMax true
        (PTimestep.mk 0 (RVal.scalar (3/5)) 1 [])
      ≠ CombineRewards.processImplClaimed
        [(ThresholdReward.mk (1/2) 1 0).processImpl,
         (ThresholdReward.mk (9/10) 5 2).processImpl] npMax true
        (PTimestep.mk 0 (RVal.scalar (3/5)) 1 []) := by
  norm_num [CombineRewards.processImpl, CombineRewards.processImplClaimed,
    combineLoop, combineLoopClaimed, ThresholdReward.processImpl,
    extendRewards, npMax, allVals, rvalVals]

/-- C4 amended: `CombineRewards._process_impl` runs the children in
sequence with each child receiving the previous child's output timestep
(the first child receives the incoming one), collects each child's
resulting reward — extending the collection with the elements of
array-valued rewards when `flatten_rewards` is configured — applies the
combination strategy (default: maximum) to the collected values, casts the
result to the declared dtype, and returns the LAST child's output record
with that combined reward; with the default strategy and two children
producing rewards 0.3 and 0.7, the resulting reward is 0.7. -/
theorem c4_combine_rewards_chains_children :
    (∀ (children : List Child) (strategy : List RVal → RVal) (flatten : Bool)
        (ts tsN : PTimestep) (rs : List RVal),
      chainProcess children ts = Except.ok tsN →
      collectRewards flatten children ts [] = Except.ok rs →
      CombineRewards.processImpl children strategy flatten ts
        = Except.ok { tsN with reward := strategy rs })
    ∧ CombineRewards.processImpl
        [fun ts => Except.ok { ts with reward := RVal.scalar (3/10) },
         fun ts => Except.ok { ts with reward := RVal.scalar (7/10) }]
        npMax true (PTimestep.mk 0 (RVal.scalar 0) 1 [])
      = Except.ok (PTimestep.mk 0 (RVal.scalar (7/10)) 1 []) := by
  constructor
  · intro children strategy flatten ts tsN rs h1 h2
    unfold CombineRewards.processImpl
    rw [(combineLoop_eq_chain_collect flatten children ts [] tsN rs).mpr ⟨h1, h2⟩]
  · norm_num [CombineRewards.processImpl, combineLoop, extendRewards, npMax,
      allVals, rvalVals]

/-- Witness for C4's amended statement: the general characterization
applied to two constant-reward children producing 0.3 and 0.7. -/
theorem c4_witness :
    CombineRewards.processImpl
        [fun ts => Except.ok { ts with reward := RVal.scalar (3/10) },
         fun ts => Except.ok { ts with reward := RVal.scalar (1/2) }]
        npMax true (PTimestep.mk 7 (RVal.scalar 0) 1 [("o", [3])])
      = Except.ok { PTimestep.mk 7 (RVal.scalar (1/2)) 1 [("o", [3])] with
          reward := npMax [RVal.scalar (3/10), RVal.scalar (1/2)] } := by
  exact c4_combine_rewards_chains_children.1
    [fun ts => Except.ok { ts with reward := RVal.scalar (3/10) },
     fun ts => Except.ok { ts with reward := RVal.scalar (1/2) }]
    npMax true
    (PTimestep.mk 7 (RVal.scalar 0) 1 [("o", [3])])
    (PTimestep.mk 7 (RVal.scalar (1/2)) 1 [("o", [3])])
    [RVal.scalar (3/10), RVal.scalar (1/2)]
    (by norm_num [chainProcess])
    (by norm_num [collectRewards, extendRewards])

/-! ### Claim theorems: constrained_action_spec (C5) -/

/-- Helper: `np.any(a > b)` holds exactly when some in-range index has
`b` below `a`. -/
theorem npAnyGt_iff : ∀ (a b : List ℚ),
    npAnyGt a b = true ↔
      ∃ i, i < a.length ∧ i < b.length ∧ b.getD i 0 < a.getD i 0
  | [], b => by simp [npAnyGt]
  | a :: atl, [] => by simp [npAnyGt]
  | a :: atl, b :: btl => by
      rw [npAnyGt]
      simp only [Bool.or_eq_true, decide_eq_true_eq]
      rw [npAnyGt_iff atl btl]
      constructor
      · rintro (h | ⟨i, h1, h2, h3⟩)
        · exact ⟨0, by simp, by simp, by simpa using h⟩
        · exact ⟨i + 1, by simpa using h1, by simpa using h2, by simpa using h3⟩
      · rintro ⟨i, h1, h2, h3⟩
        cases i with
        | zero => exact Or.inl (by simpa using h3)
        | succ j =>
            exact Or.inr ⟨j, by simpa using h1, by simpa using h2, by simpa using h3⟩

/-- Helper: `getD` distributes over `zipWith` at in-range indices. -/
theorem getD_zipWith_of_lt (f : ℚ → ℚ → ℚ) :
    ∀ (a b : List ℚ) (i : ℕ), i < a.length → i < b.length →
      (List.zipWith f a b).getD i 0 = f (a.getD i 0) (b.getD i 0)
  | _ :: _, _ :: _, 0, _, _ => rfl
  | x :: xs, y :: ys, i + 1, h1, h2 => by
      simpa using getD_zipWith_of_lt f xs ys i (by simpa using h1) (by simpa using h2)
  | [], _, i, h1, _ => absurd h1 (by simp)
  | _ :: _, [], i, _, h2 => absurd h2 (by simp)

/-- C5: for every base bounded spec and caller-supplied bounds,
`constrained_action_spec` (i) on success returns a spec with the base's
shape, dtype and name, minimum the elementwise max of base and given
minima, and maximum the elementwise min of base and given maxima; (ii)
raises exactly when a given bound's shape mismatches the base's or the
resulting minimum exceeds the resulting maximum at some index; and (iii)
raises for every contradictory caller-supplied bounds pair of matching
shape (given minimum above given maximum at some in-range index). -/
theorem c5_constrained_action_spec_spec :
    (∀ (gmin gmax : List ℚ) (base : BoundedArray) (out : BoundedArray),
      constrained_action_spec gmin gmax base = Except.ok out →
      out.shape = base.shape ∧ out.dtype = base.dtype ∧ out.name = base.name
        ∧ out.minimum = List.zipWith max base.minimum gmin
        ∧ out.maximum = List.zipWith min base.maximum gmax)
    ∧ (∀ (gmin gmax : List ℚ) (base : BoundedArray),
      (∃ e, constrained_action_spec gmin gmax base = Except.error e) ↔
        (gmin.length ≠ base.minimum.length ∨ gmax.length ≠ base.maximum.length
          ∨ ∃ i, i < (List.zipWith max base.minimum gmin).length
              ∧ i < (List.zipWith min base.maximum gmax).length
              ∧ (List.zipWith min base.maximum gmax).getD i 0
                  < (List.zipWith max base.minimum gmin).getD i 0))
    ∧ (∀ (gmin gmax : List ℚ) (base : BoundedArray) (i : ℕ),
      base.minimum.length = base.maximum.length →
      gmin.length = base.minimum.length → gmax.length = base.maximum.length →
      i < gmin.length → gmax.getD i 0 < gmin.getD i 0 →
      ∃ e, constrained_action_spec gmin gmax base = Except.error e) := by
  have part1 : ∀ (gmin gmax : List ℚ) (base : BoundedArray) (out : BoundedArray),
      constrained_action_spec gmin gmax base = Except.ok out →
      out.shape = base.shape ∧ out.dtype = base.dtype ∧ out.name = base.name
        ∧ out.minimum = List.zipWith max base.minimum gmin
        ∧ out.maximum = List.zipWith min base.maximum gmax := by
    intro gmin gmax base out h
    simp only [constrained_action_spec] at h
    split at h
    · simp at h
    · split at h
      · simp at h
      · split at h
        · simp at h
        · simp only [Except.ok.injEq] at h
          subst h
          exact ⟨rfl, rfl, rfl, rfl, rfl⟩
  have part2 : ∀ (gmin gmax : List ℚ) (base : BoundedArray),
      (∃ e, constrained_action_spec gmin gmax base = Except.error e) ↔
        (gmin.length ≠ base.minimum.length ∨ gmax.length ≠ base.maximum.length
          ∨ ∃ i, i < (List.zipWith max base.minimum gmin).length
              ∧ i < (List.zipWith min base.maximum gmax).length
              ∧ (List.zipWith min base.maximum gmax).getD i 0
                  < (List.zipWith max base.minimum gmin).getD i 0) := by
    intro gmin gmax base
    simp only [constrained_action_spec]
    split_ifs with h1 h2 h3
    · exact iff_of_true ⟨_, rfl⟩ (Or.inl h1)
    · exact iff_of_true ⟨_, rfl⟩ (Or.inr (Or.inl h2))
    · rw [npAnyGt_iff] at h3
      exact iff_of_true ⟨_, rfl⟩ (Or.inr (Or.inr h3))
    · rw [npAnyGt_iff] at h3
      refine iff_of_false ?_ ?_
      · rintro ⟨e, he⟩
        simp at he
      · rintro (hc | hc | hc)
        exacts [h1 hc, h2 hc, h3 hc]
  refine ⟨part1, part2, ?_⟩
  intro gmin gmax base i hbase hmin hmax hi hcontra
  refine (part2 gmin gmax base).mpr (Or.inr (Or.inr ⟨i, ?_, ?_, ?_⟩))
  · rw [List.length_zipWith]
    omega
  · rw [List.length_zipWith]
    omega
  · rw [getD_zipWith_of_lt max base.minimum gmin i (by omega) (by omega)]
    rw [getD_zipWith_of_lt min base.maximum gmax i (by omega) (by omega)]
    calc min (base.maximum.getD i 0) (gmax.getD i 0)
        ≤ gmax.getD i 0 := min_le_right _ _
      _ < gmin.getD i 0 := hcontra
      _ ≤ max (base.minimum.getD i 0) (gmin.getD i 0) := le_max_right _ _

/-- Witness for C5: (i) applied to base bounds [0,0]..[10,10] with given
bounds [1,1]..[9,9] (success), and (iii) applied to the contradictory
given bounds [5,0]..[3,10] at index 0. -/
theorem c5_witness :
    ((BoundedArray.mk 2 "float64" (List.zipWith max [(0:ℚ), 0] [1, 1])
        (List.zipWith min [(10:ℚ), 10] [9, 9]) "base").shape
          = (BoundedArray.mk 2 "float64" [(0:ℚ), 0] [(10:ℚ), 10] "base").shape
      ∧ (BoundedArray.mk 2 "float64" (List.zipWith max [(0:ℚ), 0] [1, 1])
        (List.zipWith min [(10:ℚ), 10] [9, 9]) "base").minimum
          = List.zipWith max [(0:ℚ), 0] [1, 1])
    ∧ ∃ e, constrained_action_spec [(5:ℚ), 0] [(3:ℚ), 10]
        (BoundedArray.mk 2 "float64" [(0:ℚ), 0] [(10:ℚ), 10] "base")
        = Except.error e := by
  constructor
  · have h := c5_constrained_action_spec_spec.1 [1, 1] [9, 9]
      (BoundedArray.mk 2 "float64" [(0:ℚ), 0] [(10:ℚ), 10] "base")
      (BoundedArray.mk 2 "float64" (List.zipWith max [(0:ℚ), 0] [1, 1])
        (List.zipWith min [(10:ℚ), 10] [9, 9]) "base")
      (by norm_num [constrained_action_spec, npAnyGt])
    exact ⟨h.1, h.2.2.2.1⟩
  · exact c5_constrained_action_spec_spec.2.2 [5, 0] [3, 10]
      (BoundedArray.mk 2 "float64" [(0:ℚ), 0] [(10:ℚ), 10] "base") 0
      (by norm_num) (by norm_num) (by norm_num) (by norm_num) (by norm_num)

/-! ### Claim theorems: prefix_slicer (C6) -/

/-- Helper: counting the trues of a mapped predicate is the length of the
filtered list. -/
theorem count_true_map_eq_length_filter {α : Type} (p : α → Bool) :
    ∀ l : List α, (l.map p).count true = (l.filter p).length
  | [] => rfl
  | a :: tl => by
      by_cases h : p a <;>
        simp [List.count_cons, List.filter_cons, h,
          count_true_map_eq_length_filter p tl]

/-- Helper: boolean-mask selection of a list by its own mapped predicate
is exactly filtering by the predicate. -/
theorem maskSelect_map_self {α : Type} (p : α → Bool) :
    ∀ l : List α, maskSelect (l.map p) l = l.filter p
  | [] => rfl
  | a :: tl => by
      by_cases h : p a <;>
        simp [maskSelect, List.filter_cons, h] <;>
        simpa [maskSelect] using maskSelect_map_self p tl

/-- C6: `prefix_slicer` (i) returns the identity action space whenever the
spec's shape has zero elements, regardless of names; (ii) otherwise raises
a ValueError precisely when the tab-split name count differs from the
spec's dimension, when the spec is a DiscreteArray, or when the spec is
neither of the two known array kinds; and otherwise returns a Deslicer
whose input spec selects exactly the components whose names match the
expression, for both known kinds — (iii) the bounded kind: the input
spec's size is the number of matching names, its name joins exactly the
matching names, and its bounds are the mask-selected base bounds; (iv)
the plain array kind: the input spec's size is the number of matching
names and its name joins exactly the matching names. -/
theorem c6_prefix_slicer_spec :
    (∀ (spec : PySpec) (pfx : String) (pmatch : String → Bool) (dv : Option ℚ),
      spec.size = 0 →
      prefix_slicer spec pfx pmatch dv
        = Except.ok (SlicerSpace.IdentityActionSpace spec))
    ∧ (∀ (spec : PySpec) (pfx : String) (pmatch : String → Bool) (dv : Option ℚ),
      spec.size ≠ 0 →
      ((∃ msg, prefix_slicer spec pfx pmatch dv
          = Except.error (PyErr.valueError msg)) ↔
        ((splitOnChar '\t' spec.specName).length ≠ spec.size
          ∨ (∃ n dt nm, spec = PySpec.DiscreteArray n dt nm)
          ∨ (∃ n dt nm, spec = PySpec.OtherSpec n dt nm))))
    ∧ (∀ (b : BoundedArray) (pfx : String) (pmatch : String → Bool) (dv : Option ℚ),
      b.shape ≠ 0 →
      (splitOnChar '\t' b.name).length = b.shape →
      prefix_slicer (PySpec.BoundedArraySpec b) pfx pmatch dv
        = Except.ok (SlicerSpace.DeslicerSpace (Deslicer.mk pfx
            (PySpec.BoundedArraySpec (BoundedArray.mk
              ((splitOnChar '\t' b.name).filter pmatch).length b.dtype
              (maskSelect ((splitOnChar '\t' b.name).map pmatch) b.minimum)
              (maskSelect ((splitOnChar '\t' b.name).map pmatch) b.maximum)
              (tabJoin ((splitOnChar '\t' b.name).filter pmatch))))
            b.shape b.dtype ((splitOnChar '\t' b.name).map pmatch) dv)))
    ∧ (∀ (n : ℕ) (dt nm pfx : String) (pmatch : String → Bool) (dv : Option ℚ),
      n ≠ 0 →
      (splitOnChar '\t' nm).length = n →
      prefix_slicer (PySpec.ArraySpec n dt nm) pfx pmatch dv
        = Except.ok (SlicerSpace.DeslicerSpace (Deslicer.mk pfx
            (PySpec.ArraySpec ((splitOnChar '\t' nm).filter pmatch).length dt
              (tabJoin ((splitOnChar '\t' nm).filter pmatch)))
            n dt ((splitOnChar '\t' nm).map pmatch) dv))) := by
  refine ⟨?_, ?_, ?_, ?_⟩
  · intro spec pfx pmatch dv hsz
    unfold prefix_slicer
    rw [if_pos hsz]
  · intro spec pfx pmatch dv hsz
    cases spec with
    | DiscreteArray n dt nm =>
        simp only [prefix_slicer, PySpec.specName, PySpec.size] at hsz ⊢
        rw [if_neg hsz]
        by_cases hn : (splitOnChar '\t' nm).length ≠ n <;> simp [hn]
    | BoundedArraySpec b =>
        simp only [prefix_slicer, PySpec.specName, PySpec.size] at hsz ⊢
        rw [if_neg hsz]
        by_cases hn : (splitOnChar '\t' b.name).length ≠ b.shape <;> simp [hn]
    | ArraySpec n dt nm =>
        simp only [prefix_slicer, PySpec.specName, PySpec.size] at hsz ⊢
        rw [if_neg hsz]
        by_cases hn : (splitOnChar '\t' nm).length ≠ n <;> simp [hn]
    | OtherSpec n dt nm =>
        simp only [prefix_slicer, PySpec.specName, PySpec.size] at hsz ⊢
        rw [if_neg hsz]
        by_cases hn : (splitOnChar '\t' nm).length ≠ n <;> simp [hn]
  · intro b pfx pmatch dv hsz hn
    simp only [prefix_slicer, PySpec.specName, PySpec.size, PySpec.dtype]
    rw [if_neg hsz]
    rw [if_neg (show ¬((splitOnChar '\t' b.name).length ≠ b.shape) by omega)]
    rw [count_true_map_eq_length_filter, maskSelect_map_self]
  · intro n dt nm pfx pmatch dv hsz hn
    simp only [prefix_slicer, PySpec.specName, PySpec.size, PySpec.dtype]
    rw [if_neg hsz]
    rw [if_neg (show ¬((splitOnChar '\t' nm).length ≠ n) by omega)]
    rw [count_true_map_eq_length_filter, maskSelect_map_self]

/-- Witness for C6: parts (iii) and (iv) applied to two-component specs —
one bounded, one plain — named "ax(tab)b" with an expression matching only
"ax". -/
theorem c6_witness :
    (prefix_slicer
        (PySpec.BoundedArraySpec (BoundedArray.mk 2 "float64" [0, 1] [2, 3] "ax\tb"))
        "ax" (fun nm => nm == "ax") none
      = Except.ok (SlicerSpace.DeslicerSpace (Deslicer.mk "ax"
          (PySpec.BoundedArraySpec (BoundedArray.mk 1 "float64" [0] [2] "ax"))
          2 "float64" [true, false] none)))
    ∧ (prefix_slicer (PySpec.ArraySpec 2 "float32" "ax\tb")
        "ax" (fun nm => nm == "ax") (some 0)
      = Except.ok (SlicerSpace.DeslicerSpace (Deslicer.mk "ax"
          (PySpec.ArraySpec 1 "float32" "ax")
          2 "float32" [true, false] (some 0)))) := by
  constructor
  · have h := c6_prefix_slicer_spec.2.2.1
      (BoundedArray.mk 2 "float64" [0, 1] [2, 3] "ax\tb")
      "ax" (fun nm => nm == "ax") none
      (by norm_num) (by decide)
    rw [h]
    decide
  · have h := c6_prefix_slicer_spec.2.2.2
      2 "float32" "ax\tb" "ax" (fun nm => nm == "ax") (some 0)
      (by norm_num) (by decide)
    rw [h]
    decide

/-! ### Claim theorems: _Deslicer.project (C7) -/

/-- Helper: position-wise description of the numpy masked assignment. -/
theorem maskedWrite_getD :
    ∀ (ms : List Bool) (act os : List (Option ℚ)) (p : ℕ),
      act.length = ms.count true → ms.length = os.length → p < os.length →
      (maskedWrite ms act os).getD p none =
        if ms.getD p false then act.getD ((ms.take p).count true) none
        else os.getD p none
  | [], act, os, p, _, hlen, _ => by
      simp only [maskedWrite]
      simp [List.getD]
  | true :: mtl, act, os, p, hact, hlen, hp => by
      cases act with
      | nil => simp [List.count_cons] at hact
      | cons a atl =>
        cases os with
        | nil => simp at hp
        | cons o otl =>
          rw [show maskedWrite (true :: mtl) (a :: atl) (o :: otl)
              = a :: maskedWrite mtl atl otl from rfl]
          cases p with
          | zero => simp
          | succ q =>
              have hact' : atl.length = mtl.count true := by
                simp [List.count_cons] at hact
                omega
              have hq : q < otl.length := by simpa using hp
              have := maskedWrite_getD mtl atl otl q hact' (by simpa using hlen) hq
              simpa [List.count_cons, List.getD_cons_succ] using this
  | false :: mtl, act, os, p, hact, hlen, hp => by
      cases os with
      | nil => simp at hp
      | cons o otl =>
        rw [show maskedWrite (false :: mtl) act (o :: otl)
            = o :: maskedWrite mtl act otl from rfl]
        cases p with
        | zero => simp
        | succ q =>
            have hact' : act.length = mtl.count true := by
              simpa [List.count_cons] using hact
            have hq : q < otl.length := by simpa using hp
            have := maskedWrite_getD mtl act otl q hact' (by simpa using hlen) hq
            simpa [List.count_cons, List.getD_cons_succ] using this

/-- C7: `_Deslicer.project` builds an output array of the configured
output shape filled with the default value (`none`, i.e. NaN, when no
default was supplied), then overwrites the mask-selected positions with
the caller-supplied values in index order: (i) when the mask selects zero
indices it returns the all-default array for every input, and (ii)
position p of the output holds the next caller value (in index order) when
the mask is true at p and the default otherwise. -/
theorem c7_deslicer_project_spec :
    (∀ (d : Deslicer) (action : List (Option ℚ)),
      d.mask.count true = 0 →
      d.project action = List.replicate d.output_shape d.default)
    ∧ (∀ (d : Deslicer) (action : List (Option ℚ)) (p : ℕ),
      d.mask.length = d.output_shape →
      action.length = d.mask.count true →
      p < d.output_shape →
      (d.project action).getD p none =
        if d.mask.getD p false then
          action.getD ((d.mask.take p).count true) none
        else d.default) := by
  constructor
  · intro d action hcount
    have hany : d.mask.any id = false := by
      rw [List.count_eq_zero] at hcount
      rw [List.any_eq_false]
      intro b hb
      cases b with
      | true => exact absurd hb hcount
      | false => simp
    simp [Deslicer.project, hany]
  · intro d action p hlen hact hp
    cases hany : d.mask.any id with
    | true =>
      simp only [Deslicer.project, hany, if_true]
      rw [maskedWrite_getD d.mask action (List.replicate d.output_shape d.default) p
        hact (by simpa using hlen) (by simpa using hp)]
      rw [List.getD_eq_getElem (List.replicate d.output_shape d.default) none
        (by simpa using hp)]
      simp
    | false =>
      have hfalse : d.mask.getD p false = false := by
        rw [List.any_eq_false] at hany
        have hplen : p < d.mask.length := by omega
        cases hv : d.mask.getD p false
        · rfl
        · rw [List.getD_eq_getElem _ _ hplen] at hv
          have hmem : true ∈ d.mask := hv ▸ List.getElem_mem hplen
          simpa using hany true hmem
      simp only [Deslicer.project, hany, Bool.false_eq_true, if_false, hfalse]
      rw [List.getD_eq_getElem (List.replicate d.output_shape d.default) none
        (by simpa using hp)]
      simp

/-- Witness for C7: both parts applied to concrete deslicers — one whose
mask selects nothing (all-default output) and one with mask
[false, true, false] at position 1. -/
theorem c7_witness :
    ((Deslicer.mk "p" (PySpec.ArraySpec 0 "float64" "") 2 "float64"
        [false, false] (some 4)).project [] = List.replicate 2 (some (4:ℚ)))
    ∧ ((Deslicer.mk "q" (PySpec.ArraySpec 1 "float64" "x") 3 "float64"
        [false, true, false] none).project [some 5]).getD 1 none =
        if ([false, true, false].getD 1 false) then
          [some (5:ℚ)].getD (([false, true, false].take 1).count true) none
        else none := by
  constructor
  · exact c7_deslicer_project_spec.1
      (Deslicer.mk "p" (PySpec.ArraySpec 0 "float64" "") 2 "float64"
        [false, false] (some 4)) [] (by decide)
  · exact c7_deslicer_project_spec.2
      (Deslicer.mk "q" (PySpec.ArraySpec 1 "float64" "x") 3 "float64"
        [false, true, false] none) [some 5] 1 (by decide) (by decide) (by decide)

end DmRobotics
